import Mathlib

/-!
Verification development for the DOM-reading parser node `parse_html.py` of the
Hack-BookToss repository.

Shallow embedding conventions:
* HTML trees (BeautifulSoup documents) are modelled by the inductive `Node`;
  the parsed document ("soup") is a `Node` whose tag is `"[document]"`, matching
  BeautifulSoup's name for the root.  `get_text(sep)` is the separator-join of
  all text leaves, as in BeautifulSoup.
* Functions that read `tag.parent` in Python receive the parent explicitly as
  an `Option Node` argument (the pipeline passes the true parent, which may be
  the `"[document]"` root; the functions test the name, as the source does).
* Python regexes are translated into explicit matching functions over
  `List Char`, reproducing `re.search` / `re.sub` / `re.match` backtracking
  semantics of the concrete patterns in the source (leftmost start, greedy or
  lazy quantifiers with backtracking, alternatives in written order, `\b` as a
  word/non-word boundary).  Python's `\w` is modelled for the scripts that
  occur in this code base (ASCII alphanumerics, underscore, Hangul syllables);
  `\s` is modelled by the six ASCII whitespace characters.
* BeautifulSoup `class_` arguments are modelled per the library's semantics:
  a string matches when it is one of the tag's classes; a callable is applied
  to each class value separately, and to `None` when the tag has no class.
* Node identity (`id(el)` in the source) is modelled by the node's path (list
  of child indices) from the document root: distinct live objects of one parse
  correspond exactly to distinct paths.
* File I/O is factored out: the per-page read/parse outcome is an input
  (`PageInput`), and the JSONL write outcome is an input
  (`Except SaveExc Unit`); everything downstream of those effects is
  translated from the source.
-/

namespace BookToss

/-! ## Character and string utilities -/

/-- Python `\s` (ASCII part): the whitespace characters collapsed by `_clean`. -/
def isSpace (c : Char) : Bool :=
  c == ' ' || c == '\t' || c == '\n' || c == '\r' || c == Char.ofNat 11 || c == Char.ofNat 12

/-- The Hangul-syllable range `[가-힣]` of `_has_korean` and the call-number pattern. -/
def koreanChar (c : Char) : Bool :=
  0xAC00 ≤ c.toNat && c.toNat ≤ 0xD7A3

/-- Python `\w` restricted to the scripts occurring in this code base: ASCII
alphanumerics and underscore, Hangul syllables, Hangul jamo and compatibility
jamo, and CJK ideographs (all letters, hence word characters, in Python). -/
def wordChar (c : Char) : Bool :=
  c.isAlphanum || koreanChar c || c == '_' ||
  (0x1100 ≤ c.toNat && c.toNat ≤ 0x11FF) ||
  (0x3131 ≤ c.toNat && c.toNat ≤ 0x318E) ||
  (0x4E00 ≤ c.toNat && c.toNat ≤ 0x9FFF)

/-- Embeds `re.sub(r"\s+", " ", txt)`: collapse every whitespace run to one space
(`inRun` records whether the previous character belonged to a run already
replaced). -/
def collapseWsAux (inRun : Bool) : List Char → List Char
  | [] => []
  | c :: cs =>
    if isSpace c then
      if inRun then collapseWsAux true cs else ' ' :: collapseWsAux true cs
    else c :: collapseWsAux false cs

def collapseWs (l : List Char) : List Char :=
  collapseWsAux false l

/-- Python `str.strip()` on a char list. -/
def stripWsL (l : List Char) : List Char :=
  ((l.dropWhile isSpace).reverse.dropWhile isSpace).reverse

/-- Embeds `_clean` on a definitely-present string. -/
def cleanStr (s : String) : String :=
  if s = "" then "" else String.mk (stripWsL (collapseWs s.data))

/-- Embeds `_clean(txt)` (the source also accepts `None`). -/
def clean : Option String → String
  | none => ""
  | some s => cleanStr s

/-- Substring test on char lists (`needle` occurs somewhere in the list). -/
def containsSubL (needle : List Char) : List Char → Bool
  | [] => needle.isPrefixOf []
  | c :: cs => needle.isPrefixOf (c :: cs) || containsSubL needle cs

/-- Python `sub in s`. -/
def containsSub (s sub : String) : Bool :=
  containsSubL sub.data s.data

/-- Embeds `_has_korean`: `re.search(r"[가-힣]", s)` is truthy. -/
def has_korean (s : String) : Bool :=
  s.data.any koreanChar

/-- Python `s.startswith(p)`. -/
def startsWith (s p : String) : Bool :=
  p.data.isPrefixOf s.data

/-- Python `s.lower()` (ASCII case folding, as in the URL strings this is used on). -/
def lowerStr (s : String) : String :=
  String.mk (s.data.map Char.toLower)

/-! ## The global keyword tables of the source -/

def STATUS_KEYWORDS : List String :=
  ["대출가능", "대출중", "대출 불가", "대출불가",
   "예약가능", "예약불가", "예약 중", "예약중",
   "반납예정일", "상호대차", "비치중"]

def LIBRARY_HINTS : List String :=
  ["도서관", "작은도서관", "분관", "자료관"]

/-! ## The HTML tree model -/

/-- A BeautifulSoup node: an element with tag name, class list, other
attributes, and children, or a text node.  The document root is an `elem`
with tag `"[document]"`. -/
inductive Node where
  | elem (tag : String) (classes : List String) (attrs : List (String × String)) (children : List Node)
  | text (s : String)

def Node.name : Node → String
  | .elem t _ _ _ => t
  | .text _ => ""

def Node.classes : Node → List String
  | .elem _ cs _ _ => cs
  | .text _ => []

def Node.children : Node → List Node
  | .elem _ _ _ ch => ch
  | .text _ => []

/-- Attribute lookup, `tag.get(k)`. -/
def Node.attr : Node → String → Option String
  | .elem _ _ attrs _, k => (attrs.find? (fun p => p.1 == k)).map Prod.snd
  | .text _, _ => none

/-- Embeds `tag.get(k, d)`. -/
def Node.attrD (n : Node) (k d : String) : String :=
  (n.attr k).getD d

/-- Whether the node is an element bearing the attribute (BS `attrs={k: True}`). -/
def Node.hasAttr (n : Node) (k : String) : Bool :=
  (n.attr k).isSome

mutual

/-- The text-leaf strings of a subtree, in document order (BS `.strings`). -/
def texts : Node → List String
  | .text s => [s]
  | .elem _ _ _ ch => textsList ch

def textsList : List Node → List String
  | [] => []
  | n :: ns => texts n ++ textsList ns

end

/-- BeautifulSoup `get_text(sep)`. -/
def getText (n : Node) (sep : String) : String :=
  String.intercalate sep (texts n)

mutual

/-- Strict descendants of a node satisfying `p`, in document (pre-)order:
the search set of BeautifulSoup `find_all`. -/
def descMatching (p : Node → Bool) : Node → List Node
  | .text _ => []
  | .elem _ _ _ ch => descMatchingList p ch

def descMatchingList (p : Node → Bool) : List Node → List Node
  | [] => []
  | c :: cs =>
    (if p c then [c] else []) ++ descMatching p c ++ descMatchingList p cs

end

/-- A BeautifulSoup `class_` argument: behaviour on tags without a class
attribute, and the per-class-value test. -/
structure ClassPred where
  onNone : Bool
  onSome : String → Bool

/-- Whether a node matches a `class_` argument (callable applied per class
value, and to `None` for class-less tags). -/
def matchClassPred (cp : ClassPred) (n : Node) : Bool :=
  match n.classes with
  | [] => cp.onNone
  | cs => cs.any cp.onSome

/-- Embeds `class_="c"` (a string): matches when `c` is among the tag's classes. -/
def classEq (c : String) : ClassPred :=
  { onNone := false, onSome := fun x => x == c }

/-- Embeds `find_all(names, class_=cp)`. -/
def findAllTagsClass (n : Node) (names : List String) (cp : ClassPred) : List Node :=
  descMatching (fun m => names.contains m.name && matchClassPred cp m) n

/-- Embeds `find_all(name)` with no class filter (text nodes have name `""` and are
never searched for). -/
def findAllTag (n : Node) (name : String) : List Node :=
  descMatching (fun m => m.name == name) n

/-! ## The CSS selector engine (the selector forms used by the source) -/

/-- A simple selector: optional tag name plus required classes
(e.g. `div.item.row`, `.tit`, `li`). -/
structure Simple where
  tag : Option String
  cls : List String

/-- The compound selector forms used by the source: a simple selector, a
descendant combinator `A B`, or a child combinator `A > B`. -/
inductive Selector where
  | simp (s : Simple)
  | desc (anc : Simple) (s : Simple)
  | child (par : Simple) (s : Simple)

def matchesSimple (s : Simple) (n : Node) : Bool :=
  match n with
  | .text _ => false
  | .elem tag classes _ _ =>
    (match s.tag with | none => true | some t => t == tag) &&
    s.cls.all (fun c => classes.contains c)

/-- One `select` result: the matched node, its path from the search root
(the object identity used for `id(el)` dedup), and its parent node. -/
structure Found where
  path : List Nat
  node : Node
  parent : Node

/-- Whether a candidate child matches the selector, given its parent and the
list of its further ancestors (nearest first, ending at the search root). -/
def selMatches (sel : Selector) (parent : Node) (anc : List Node) (c : Node) : Bool :=
  match sel with
  | .simp s => matchesSimple s c
  | .child p s => matchesSimple s c && matchesSimple p parent
  | .desc a s => matchesSimple s c && (parent :: anc).any (matchesSimple a)

mutual

/-- Collect matches among the strict descendants of the node, in document
order (what `soup.select` / `element.select` returns). -/
def selGo (sel : Selector) (anc : List Node) (path : List Nat) : Node → List Found
  | .text _ => []
  | .elem t cl att ch => selChildren sel (.elem t cl att ch) anc path 0 ch

def selChildren (sel : Selector) (parent : Node) (anc : List Node) (path : List Nat)
    (i : Nat) : List Node → List Found
  | [] => []
  | c :: cs =>
    (if selMatches sel parent anc c then [⟨path ++ [i], c, parent⟩] else []) ++
    selGo sel (parent :: anc) (path ++ [i]) c ++
    selChildren sel parent anc path (i + 1) cs

end

/-- Embeds `root.select(sel)`: matches among strict descendants, document order. -/
def select (root : Node) (sel : Selector) : List Found :=
  selGo sel [] [] root

/-- Embeds `element.select_one(sel)`: the first match, if any. -/
def selectOne (root : Node) (sel : Selector) : Option Node :=
  (select root sel).head?.map Found.node

/-! ## Regex matchers translated from the source's patterns -/

/-- First `some` among applying `step` at every start position, leftmost
first and including the end position (the scan order of `re.search`). -/
def searchFrom (step : List Char → Option α) : List Char → Option α
  | [] => step []
  | c :: cs =>
    match step (c :: cs) with
    | some r => some r
    | none => searchFrom step cs

/-- Suffix-class `[가-힣\d\-]` of `CALLNO_DIRECT_PAT`. -/
def callnoSuffChar (c : Char) : Bool :=
  koreanChar c || c.isDigit || c == '-'

/-- Embeds `\b` between the `k`-th char of `run` (1-based, `k ≥ 1`) and what follows
(`run` continues, else `tail`): word-ness must differ (end of input counts as
non-word). -/
def boundaryAt (run tail : List Char) (k : Nat) : Bool :=
  match run.drop (k - 1) with
  | [] => false
  | last :: rest =>
    let next := match rest with
      | n :: _ => some n
      | [] => tail.head?
    wordChar last != (match next with | some n => wordChar n | none => false)

/-- Greedy `[가-힣\d\-]+\b`: the largest `k ≥ 1` (backtracking from the
maximal munch) with a word boundary after `k` suffix chars. -/
def bestSuffLen (run tail : List Char) : Option Nat :=
  (List.range run.length).reverse.find? (fun i => boundaryAt run tail (i + 1)) |>.map (· + 1)

/-- Embeds `\d{3,4}[.\-][가-힣\d\-]+\b` at the head of `l`; returns the number of
chars consumed.  The `{3,4}` quantifier is greedy (4 digits tried first). -/
def callnoCore (l : List Char) : Option Nat :=
  let ds := (l.takeWhile Char.isDigit).length
  let tryLen : Nat → Option Nat := fun d =>
    if ds < d then none
    else
      match l.drop d with
      | [] => none
      | s :: tail =>
        if s == '.' || s == '-' then
          let run := tail.takeWhile callnoSuffChar
          (bestSuffLen run (tail.drop run.length)).map (fun k => d + 1 + k)
        else none
  match tryLen 4 with
  | some n => some n
  | none => tryLen 3

/-- Embeds `CALLNO_DIRECT_PAT` anchored at the head of `l`: optional literal prefix
alternatives in written order (then the empty alternative), `\s*`, then the
numeric core; returns group 0. -/
def callnoDirectAt (l : List Char) : Option (List Char) :=
  let withPre : List Char → Option (List Char) := fun pre =>
    if pre.isPrefixOf l then
      let r0 := l.drop pre.length
      let ws := (r0.takeWhile isSpace).length
      (callnoCore (r0.drop ws)).map (fun n => l.take (pre.length + ws + n))
    else none
  match withPre "큰글자".data with
  | some g => some g
  | none =>
  match withPre "점자도서".data with
  | some g => some g
  | none =>
  match withPre "전자책".data with
  | some g => some g
  | none =>
  match withPre "일반도서".data with
  | some g => some g
  | none => withPre []

/-- Embeds `CALLNO_DIRECT_PAT.search(s)`: leftmost match, group 0. -/
def callnoDirectSearch (s : String) : Option String :=
  (searchFrom callnoDirectAt s.data).map String.mk

/-- One alternative of the lookahead in `CALLNO_PAT`: after `\s*`, a `<`, the
end of input (Python `$`, which also matches before a final newline — the
newline is whitespace, hence already consumed), or one of the literals. -/
def callnoLookahead (rest : List Char) : Bool :=
  let t := rest.dropWhile isSpace
  match t with
  | [] => true
  | c :: _ =>
    c == '<' || "위치출력".data.isPrefixOf t || "등록번호".data.isPrefixOf t ||
      "ISBN".data.isPrefixOf t

/-- Group-1 char class `[^\n<>]` of `CALLNO_PAT`. -/
def callnoGroupChar (c : Char) : Bool :=
  !(c == '\n' || c == '<' || c == '>')

/-- Lazy `([^\n<>]+?)` followed by the lookahead: grow the group one char at
a time (shortest first), as `+?` does. -/
def callnoLazyGroup : List Char → List Char → Option (List Char)
  | [], _ => none
  | c :: rest, acc =>
    if callnoGroupChar c then
      if callnoLookahead rest then some (acc ++ [c])
      else callnoLazyGroup rest (acc ++ [c])
    else none

/-- Embeds `CALLNO_PAT` anchored at the head of `l`; returns group 1.  `\s*` and the
optional colon backtrack from their greedy choices when the lazy group cannot
complete. -/
def callnoLabeledAt (l : List Char) : Option (List Char) :=
  if "청구기호".data.isPrefixOf l then
    let r0 := l.drop ("청구기호".data.length)
    let ws1max := (r0.takeWhile isSpace).length
    let afterWs1 : Nat → Option (List Char) := fun w1 =>
      let r1 := r0.drop w1
      let noColon : List Char → Option (List Char) := fun r2 =>
        let ws2max := (r2.takeWhile isSpace).length
        (List.range (ws2max + 1)).reverse.findSome?
          (fun w2 => callnoLazyGroup (r2.drop w2) [])
      match r1 with
      | c :: rest =>
        if c == ':' || c == '：' then
          match noColon rest with
          | some g => some g
          | none => noColon r1
        else noColon r1
      | [] => noColon r1
    (List.range (ws1max + 1)).reverse.findSome? afterWs1
  else none

/-- Embeds `CALLNO_PAT.search(s)`: leftmost match, group 1. -/
def callnoLabeledSearch (s : String) : Option String :=
  (searchFrom callnoLabeledAt s.data).map String.mk

/-- Embeds `AUTHOR_PAT` anchored at the head of `l`: label alternatives in written
order, `\s*`, a required colon, `\s*` (giving back chars to the greedy `(.+)`
group when it would otherwise be empty); returns group 1. -/
def authorPatAt (l : List Char) : Option (List Char) :=
  let withLabel : List Char → Option (List Char) := fun lab =>
    if lab.isPrefixOf l then
      let r0 := (l.drop lab.length).dropWhile isSpace
      match r0 with
      | c :: rest =>
        if c == ':' || c == '：' then
          let ws2max := (rest.takeWhile isSpace).length
          (List.range (ws2max + 1)).reverse.findSome? (fun w2 =>
            let g := (rest.drop w2).takeWhile (fun ch => !(ch == '\n'))
            if g.isEmpty then none else some g)
        else none
      | [] => none
    else none
  match withLabel "저자".data with
  | some g => some g
  | none =>
  match withLabel "지은이".data with
  | some g => some g
  | none =>
  match withLabel "글쓴이".data with
  | some g => some g
  | none =>
  match withLabel "작가".data with
  | some g => some g
  | none => withLabel "글".data

/-- Embeds `AUTHOR_PAT.search(s)`: leftmost match, group 1. -/
def authorPatSearch (s : String) : Option String :=
  (searchFrom authorPatAt s.data).map String.mk

/-! ## Small `re.sub` / `re.match` / `str.split` helpers of the source -/

/-- Trailing-descriptor alternatives of
`re.sub(r'\s*(글·그림|그림|글쓴이|지음|저|著)\s*$', '', ...)`, in written order. -/
def authorTrailerAlts : List (List Char) :=
  ["글·그림".data, "그림".data, "글쓴이".data, "지음".data, "저".data, "著".data]

/-- Whether `\s*(alt)\s*$` matches the whole of `l` (the `$` also accepts a
final newline, which is whitespace and hence covered by the trailing run). -/
def trailerHere (l : List Char) : Bool :=
  let ws := l.dropWhile isSpace
  authorTrailerAlts.any (fun alt => alt.isPrefixOf ws && (ws.drop alt.length).all isSpace)

/-- The `re.sub` above: drop the leftmost end-anchored trailer match. -/
def stripAuthorTrailerGo : List Char → List Char
  | [] => []
  | c :: cs => if trailerHere (c :: cs) then [] else c :: stripAuthorTrailerGo cs

def stripAuthorTrailer (s : String) : String :=
  String.mk (stripAuthorTrailerGo s.data)

/-- Literals of `re.split(r'\s+(?:발행자|발행연도|출판사|ISBN|등록번호|청구기호)', ...)`. -/
def metaSplitLabels : List (List Char) :=
  ["발행자".data, "발행연도".data, "출판사".data, "ISBN".data, "등록번호".data, "청구기호".data]

/-- Whether the split pattern matches at the head of `l`. -/
def metaSplitHere (l : List Char) : Bool :=
  match l with
  | [] => false
  | c :: _ =>
    isSpace c && metaSplitLabels.any (fun lab => lab.isPrefixOf (l.dropWhile isSpace))

/-- Embeds `re.split(...)[0]`: the prefix before the first split-pattern match. -/
def splitAtMeta : List Char → List Char
  | [] => []
  | c :: cs => if metaSplitHere (c :: cs) then [] else c :: splitAtMeta cs

/-- Embeds `re.match(r'^\d|ISBN|청구기호|발행|출판', text)` is truthy (method 1 of the
author extractor). -/
def startsMetaAuthor1 (s : String) : Bool :=
  (match s.data with | c :: _ => c.isDigit | [] => false) ||
  startsWith s "ISBN" || startsWith s "청구기호" || startsWith s "발행" || startsWith s "출판"

/-- Embeds `re.match(r'^\d|ISBN|청구기호|대출|도서관', text)` is truthy (method 2). -/
def startsMetaAuthor2 (s : String) : Bool :=
  (match s.data with | c :: _ => c.isDigit | [] => false) ||
  startsWith s "ISBN" || startsWith s "청구기호" || startsWith s "대출" || startsWith s "도서관"

/-- Embeds `re.sub(r"^\d+\.\s*", "", t)`. -/
def stripLeadingNumDot (l : List Char) : List Char :=
  let ds := l.takeWhile Char.isDigit
  if ds.isEmpty then l
  else
    match l.drop ds.length with
    | '.' :: rest => rest.dropWhile isSpace
    | _ => l

/-- Embeds `re.sub(r"^도서\s*\d*\.\s*", "", t)`. -/
def stripLeadingDoseoNumDot (l : List Char) : List Char :=
  if "도서".data.isPrefixOf l then
    let r := ((l.drop 2).dropWhile isSpace).dropWhile Char.isDigit
    match r with
    | '.' :: rest => rest.dropWhile isSpace
    | _ => l
  else l

/-- Embeds `re.sub(r"^도서\s+", "", t)`. -/
def stripLeadingDoseoWs (l : List Char) : List Char :=
  if "도서".data.isPrefixOf l then
    match l.drop 2 with
    | c :: _ => if isSpace c then (l.drop 2).dropWhile isSpace else l
    | [] => l
  else l

/-- The three leading-marker strips applied to each title candidate. -/
def stripTitleMarkers (t : String) : String :=
  String.mk (stripLeadingDoseoWs (stripLeadingDoseoNumDot (stripLeadingNumDot t.data)))

/-- Embeds `re.search(r'\[([^\]]+)\]', t)`: leftmost bracketed run, group 1. -/
def bracketSearchL : List Char → Option (List Char)
  | [] => none
  | c :: rest =>
    if c == '[' then
      let run := rest.takeWhile (fun x => !(x == ']'))
      if run.isEmpty then bracketSearchL rest
      else
        match rest.drop run.length with
        | ']' :: _ => some run
        | _ => bracketSearchL rest
    else bracketSearchL rest

def bracketSearch (s : String) : Option String :=
  (bracketSearchL s.data).map String.mk

/-- Embeds `^lab\s*[:：]\s*` anchored sub: the remainder when it matches. -/
def stripLabelColon (lab : List Char) (l : List Char) : Option (List Char) :=
  if lab.isPrefixOf l then
    match (l.drop lab.length).dropWhile isSpace with
    | c :: rest => if c == ':' || c == '：' then some (rest.dropWhile isSpace) else none
    | [] => none
  else none

/-- The two label strips (each followed by `.strip()`) applied to a resolved
library value in `_parse_item_block`. -/
def stripLibraryLabels (s : String) : String :=
  let l1 := match stripLabelColon "도서관".data s.data with | some r => r | none => s.data
  let s1 := String.mk (stripWsL l1)
  let l2 := match stripLabelColon "작은도서관".data s1.data with | some r => r | none => s1.data
  String.mk (stripWsL l2)

/-- Embeds `tag_text.split('(')[0].split('[')[0].strip()` (secondary status fragment). -/
def secondaryTrim (s : String) : String :=
  String.mk (stripWsL ((s.data.takeWhile (fun x => !(x == '('))).takeWhile (fun x => !(x == '['))))

/-! ## The `class_` lambdas of the source -/

/-- Embeds `lambda x: x and 'info02' in x.lower()`. -/
def info02Pred : ClassPred :=
  { onNone := false, onSome := fun x => !(x == "") && containsSub (lowerStr x) "info02" }

/-- Embeds `lambda x: x and 'info01' in x.lower()`. -/
def info01Pred : ClassPred :=
  { onNone := false, onSome := fun x => !(x == "") && containsSub (lowerStr x) "info01" }

/-- Embeds `lambda x: not x or 'btns' not in x.lower() if x else True` (which parses
as `(not x or 'btns' not in x.lower()) if x else True`). -/
def ulClassPred : ClassPred :=
  { onNone := true, onSome := fun x => if x == "" then true else !(containsSub (lowerStr x) "btns") }

/-- Embeds `lambda x: x and 'author' in x.lower()`. -/
def authorClassPred : ClassPred :=
  { onNone := false, onSome := fun x => !(x == "") && containsSub (lowerStr x) "author" }

/-! ## Field extractors (`_extract_*` of the source) -/

/-- The direct-pattern scan over the spans of a container, shared by methods 1
and 2 of `_extract_call_number`. -/
def callnoFromSpans (container : Node) : Option String :=
  (findAllTag container "span").findSome? (fun span =>
    (callnoDirectSearch (cleanStr (getText span ""))).map cleanStr)

/-- Embeds `ul.find_all('li', recursive=False)`: direct children with tag `li`. -/
def directLis (ul : Node) : List Node :=
  ul.children.filter (fun c => c.name == "li")

/-- Embeds `_extract_call_number`. -/
def extract_call_number (block : Node) : Option String :=
  -- 방법 1: info02-classed divs, spans scanned for the direct pattern
  match (findAllTagsClass block ["div"] info02Pred).findSome? callnoFromSpans with
  | some r => some r
  | none =>
  -- 방법 2: third direct li of each candidate ul, spans scanned likewise
  match (findAllTagsClass block ["ul"] ulClassPred).findSome? (fun ul =>
      match (directLis ul).drop 2 with
      | third :: _ => callnoFromSpans third
      | [] => none) with
  | some r => some r
  | none =>
  -- 방법 3: the "청구기호" label pattern over the whole block text
  let block_text := cleanStr (getText block " ")
  match (callnoLabeledSearch block_text).map cleanStr with
  | some r => some r
  | none =>
  -- 방법 4: the direct pattern anywhere in the block text
  (callnoDirectSearch block_text).map cleanStr

/-- The trailer strip + `_clean` + validity check shared by the author
strategies (length bound and script check; method 1/2 also pre-check). -/
def authorFinish (author0 : String) : Option String :=
  let author := cleanStr (stripAuthorTrailer author0)
  if !(author == "") && decide (author.length ≤ 50) && has_korean author then some author
  else none

/-- Embeds `_extract_author`. -/
def extract_author (block : Node) : Option String :=
  -- 방법 1: info01-classed divs holding bare author text
  match (findAllTagsClass block ["div"] info01Pred).findSome? (fun tag =>
      let text := cleanStr (getText tag "")
      if !(text == "") && decide (2 ≤ text.length) && decide (text.length ≤ 50) &&
          has_korean text && !(startsMetaAuthor1 text) then
        authorFinish text
      else none) with
  | some r => some r
  | none =>
  -- 방법 2: second direct li, span with a javascript href
  match (findAllTagsClass block ["ul"] ulClassPred).findSome? (fun ul =>
      match (directLis ul).drop 1 with
      | second :: _ =>
        match (descMatching (fun m => m.name == "span" &&
            (match m.attr "href" with
             | some h => !(h == "") && containsSub h "javascript"
             | none => false)) second).head? with
        | some span =>
          let text := cleanStr (getText span "")
          if !(text == "") && decide (2 ≤ text.length) && decide (text.length ≤ 50) &&
              has_korean text && !(startsMetaAuthor2 text) then
            authorFinish text
          else none
        | none => none
      | [] => none) with
  | some r => some r
  | none =>
  -- 방법 3: author-classed dd/div tags, spans matched against AUTHOR_PAT
  match (findAllTagsClass block ["dd", "div"] authorClassPred).findSome? (fun tag =>
      (findAllTag tag "span").findSome? (fun span =>
        match authorPatSearch (cleanStr (getText span "")) with
        | some g => authorFinish (cleanStr g)
        | none => none)) with
  | some r => some r
  | none =>
  -- 방법 4: AUTHOR_PAT over the whole block text, truncated at metadata labels
  let block_text := cleanStr (getText block " ")
  match authorPatSearch block_text with
  | some g => authorFinish (String.mk (splitAtMeta (cleanStr g).data))
  | none => none

/-- Embeds `_pick_library`: hint/keyword/length filter, then
`sorted(enumerate(libs), key=lambda x: (len(x[1]), x[0]))[-1]` — the longest
surviving candidate, later scan position winning length ties (rendered as a
left fold in which a later candidate wins on `≥`). -/
def pick_library (candidates : List String) : Option String :=
  let libs := candidates.filter (fun c =>
    LIBRARY_HINTS.any (fun h => containsSub c h) &&
    !(STATUS_KEYWORDS.any (fun kw => containsSub c kw)) &&
    decide (c.length ≤ 50))
  libs.foldl (fun acc c =>
    match acc with
    | none => some c
    | some b => if decide (b.length ≤ c.length) then some c else some b) none

/-- Embeds `_extract_library`: the cleaned nonempty texts of all em/span tags,
fed to `_pick_library`. -/
def extract_library (block : Node) : Option String :=
  let parts := (descMatching (fun m => m.name == "em" || m.name == "span") block).filterMap
    (fun em =>
      let t := cleanStr (getText em " ")
      if t == "" then none else some t)
  pick_library parts

/-- Embeds `_status_to_available` (`s = status_raw or ""` only maps the empty string
to itself). -/
def status_to_available (status_raw : String) : Bool :=
  containsSub status_raw "대출가능"

/-- The title selector cascade of `_extract_title_from_block`, in source order. -/
def titleSelectors : List Selector :=
  [.simp ⟨none, ["tit"]⟩, .simp ⟨none, ["custom-tit"]⟩, .simp ⟨none, ["title"]⟩,
   .desc ⟨none, ["book_name"]⟩ ⟨none, ["title"]⟩, .simp ⟨some "dt", ["tit"]⟩,
   .desc ⟨none, ["bookDataWrap"]⟩ ⟨none, ["tit"]⟩,
   .simp ⟨some "h3", []⟩, .simp ⟨some "h4", []⟩,
   .desc ⟨none, ["data"]⟩ ⟨none, ["tit"]⟩]

/-- The candidate list built by `_extract_title_from_block` before the Korean
filter: structural selector hits (cleaned, markers stripped; only candidates
nonempty before stripping are kept), with the first image `alt` as fallback
only when no structural selector hit. -/
def title_candidates (block : Node) : List String :=
  let structural := titleSelectors.filterMap (fun css =>
    (selectOne block css).bind (fun el =>
      let t := cleanStr (getText el " ")
      if t == "" then none else some (stripTitleMarkers t)))
  if structural.isEmpty then
    match (descMatching (fun m => m.name == "img" && m.hasAttr "alt") block).head? with
    | some img =>
      let t := clean (img.attr "alt")
      if t == "" then [] else [t]
    | none => []
  else structural

/-- The length order that the Python sort key models. -/
def lenRel (a b : String) : Prop := a.length ≤ b.length

instance : DecidableRel lenRel := fun a b => Nat.decLe a.length b.length

instance : IsTotal String lenRel := ⟨fun a b => Nat.le_total a.length b.length⟩

instance : IsTrans String lenRel := ⟨fun _ _ _ => Nat.le_trans⟩

/-- Embeds `title_candidates.sort(key=lambda x: len(x))`: Python's stable sort by
length, modelled by Mathlib's (stable) insertion sort. -/
def sortByLen (l : List String) : List String :=
  l.insertionSort lenRel

/-- Embeds `_extract_title_from_block`: Korean filter, stable sort by length, last
element (`getLast?` is `none` exactly when the filtered list is empty,
matching the source's early `return None`). -/
def extract_title_from_block (block : Node) : Option String :=
  (sortByLen ((title_candidates block).filter has_korean)).getLast?

/-! ## Status extractor (`_extract_status_from_block`) -/

/-- The explicitly excluded misleading phrases of the emphasis-class rule. -/
def excludedEmp (t : String) : Bool :=
  containsSub t "도서예약불가" || containsSub t "상호대차불가" || containsSub t "무인예약불가"

/-- The body of the emphasis-class loop for the text of a found tag: `none`
means the Python `continue` (move to the next class), `some r` means `return r`. -/
def empTagDecision (tag_text : String) : Option String :=
  if !(tag_text == "") && STATUS_KEYWORDS.any (fun kw => containsSub tag_text kw) then
    if excludedEmp tag_text then none
    else if containsSub tag_text "대출가능" then some "대출가능"
    else if containsSub tag_text "대출중" || containsSub tag_text "대출 중" ||
        containsSub tag_text "대출불가" then some "대출중"
    else some tag_text
  else none

/-- Embeds `search_scope.find(['b','span','em'], class_=cls)`. -/
def findFirstTagWithClass (scope : Node) (names : List String) (cls : String) : Option Node :=
  (findAllTagsClass scope names (classEq cls)).head?

/-- One iteration of the emphasis-class loop. -/
def empClassStep (scope : Node) (cls : String) : Option String :=
  match findFirstTagWithClass scope ["b", "span", "em"] cls with
  | some status_tag => empTagDecision (cleanStr (getText status_tag ""))
  | none => none

def empClasses : List String := ["emp3", "emp2", "emp1", "status", "state"]

/-- The bracketed-qualifier override of the b/strong stage (`none` falls
through to the un-bracketed checks, per the source's "계속 진행" comment). -/
def bracketDecision (tag_text : String) : Option String :=
  match bracketSearch tag_text with
  | some content =>
    if containsSub content "대출가능" then some "대출가능"
    else if containsSub content "대출중" || containsSub content "대출 중" then some "대출중"
    else if containsSub content "대출불가" || containsSub content "대출 불가" then some "대출불가"
    else if containsSub content "예약중" then some "대출불가"
    else none
  | none => none

/-- The un-bracketed b/strong text checks. -/
def plainBoldDecision (tag_text : String) : Option String :=
  if containsSub tag_text "대출가능" then some "대출가능"
  else if containsSub tag_text "대출중" || containsSub tag_text "대출 중" then some "대출중"
  else if containsSub tag_text "대출불가" || containsSub tag_text "대출 불가" then some "대출불가"
  else none

/-- One b/strong tag of stage 1 of the fallback scan. -/
def bStrongTagStep (tag_text : String) : Option String :=
  if tag_text == "" then none
  else
    match bracketDecision tag_text with
    | some r => some r
    | none => plainBoldDecision tag_text

/-- Stage 1: `for search_area in [block, search_scope]: for tag_name in
['b','strong']: ...`. -/
def bStrongScan (areas : List Node) : Option String :=
  (areas.flatMap (fun a => findAllTag a "b" ++ findAllTag a "strong")).findSome?
    (fun tag => bStrongTagStep (cleanStr (getText tag "")))

/-- Stage 2 loop body: the `primary_status` / `secondary_status` update for
one em/span tag text. -/
def emSpanStep (st : Option String × Option String) (tag_text : String) :
    Option String × Option String :=
  if tag_text == "" || !(STATUS_KEYWORDS.any (fun kw => containsSub tag_text kw)) then st
  else if containsSub tag_text "도서예약불가" || containsSub tag_text "상호대차불가" then st
  else if containsSub tag_text "대출가능" then (some "대출가능", st.2)
  else if containsSub tag_text "대출중" || containsSub tag_text "대출 중" then
    (if st.1.isNone then some "대출중" else st.1, st.2)
  else if containsSub tag_text "대출불가" || containsSub tag_text "대출 불가" then
    (if st.1.isNone then some "대출불가" else st.1, st.2)
  else if st.1.isNone && st.2.isNone && decide (tag_text.length < 30) then
    (st.1, some (secondaryTrim tag_text))
  else st

/-- Stage 2: em then span tags of the search scope; primary wins over
secondary. -/
def emSpanScan (scope : Node) : Option String :=
  let tags := findAllTag scope "em" ++ findAllTag scope "span"
  let st := tags.foldl (fun st tag => emSpanStep st (cleanStr (getText tag ""))) (none, none)
  match st.1 with
  | some p => some p
  | none => st.2

/-- The final full-text fallback over `txt` and the pre-computed keyword
`hits` (nonempty when reached). -/
def statusFallback (txt : String) (hits : List String) : Option String :=
  if !(containsSub txt "도서예약불가") && !(containsSub txt "상호대차불가") then
    if hits.contains "대출가능" then some "대출가능"
    else
      match (["대출중", "대출 불가", "대출불가", "비치중"]).find? (fun kw => containsSub txt kw) with
      | some kw => some kw
      | none => hits.head?
  else hits.head?

/-- Embeds `_extract_status_from_block` (the Python `block.parent` access is the
explicit `parentOpt` argument; the `'[document]'` name test is the source's). -/
def extract_status_from_block (block : Node) (parentOpt : Option Node) : Option String :=
  let search_scope := match parentOpt with
    | some p => if !(p.name == "[document]") then p else block
    | none => block
  let txt := cleanStr (getText search_scope " ")
  let hits := STATUS_KEYWORDS.filter (fun kw => containsSub txt kw)
  if hits.isEmpty then none
  else
    match empClasses.findSome? (empClassStep search_scope) with
    | some r => some r
    | none =>
      match bStrongScan [block, search_scope] with
      | some r => some r
      | none =>
        match emSpanScan search_scope with
        | some r => some r
        | none => statusFallback txt hits

/-! ## Cover image (`_extract_cover_image`) -/

/-- The accept test for an `img` `src`: nonempty, absolute (`http`), and not a
placeholder image (the source's second, relative-path branch only inspects the
value and never returns it). -/
def coverImgOk (src : String) : Bool :=
  !(src == "") && startsWith src "http" &&
  !(containsSub (lowerStr src) "noimg") && !(containsSub (lowerStr src) "no-image")

/-- The img loop of `_extract_cover_image` over the flattened search areas. -/
def coverFromImgs : List Node → Option String
  | [] => none
  | img :: rest =>
    let src := img.attrD "src" ""
    if coverImgOk src then some src else coverFromImgs rest

/-- Embeds `_extract_cover_image`. -/
def extract_cover_image (block : Node) (parentOpt : Option Node) : Option String :=
  let search_areas := [block] ++ (match parentOpt with
    | some p => if !(p.name == "[document]") then [p] else []
    | none => [])
  coverFromImgs (search_areas.flatMap (fun a => findAllTag a "img"))

/-! ## Record assembler (`_parse_item_block`) and JSONL shape -/

/-- The record dict built by `_parse_item_block`, field order as inserted. -/
structure BookRecord where
  title : String
  author : Option String
  library : Option String
  available : Bool
  call_number : Option String
  cover_image : Option String
deriving DecidableEq, Repr

/-- Embeds `_parse_item_block` (its `block_text` local is unused in the source; the
`setdefault` calls in the page loop are no-ops because every key is present). -/
def parse_item_block (block : Node) (parentOpt : Option Node) : Option BookRecord :=
  let title := extract_title_from_block block
  let status := extract_status_from_block block parentOpt
  let library0 := extract_library block
  let author := extract_author block
  let call_number := extract_call_number block
  let cover_image := extract_cover_image block parentOpt
  let library := match library0 with
    | some l => if l == "" then some l else some (stripLibraryLabels l)
    | none => none
  let available := status_to_available (status.getD "")
  match title with
  | none => none
  | some t => some ⟨t, author, library, available, call_number, cover_image⟩

/-- A JSON scalar as written by `json.dumps` for a record value. -/
inductive JsonVal where
  | str (v : String)
  | bool (v : Bool)
  | null
deriving DecidableEq, Repr

def optJson : Option String → JsonVal
  | some v => .str v
  | none => .null

/-- The key/value pairs `json.dumps(rec, ensure_ascii=False)` serializes for
one record, in dict insertion order. -/
def record_fields (r : BookRecord) : List (String × JsonVal) :=
  [("title", .str r.title), ("author", optJson r.author), ("library", optJson r.library),
   ("available", .bool r.available), ("call_number", optJson r.call_number),
   ("cover_image", optJson r.cover_image)]

/-- Embeds `_dump_jsonl`: one JSON object per line, in list order. -/
def dump_jsonl_lines (parsed_books : List BookRecord) : List (List (String × JsonVal)) :=
  parsed_books.map record_fields

/-! ## Block locator (`_find_item_blocks`) -/

/-- The selector cascade, in source priority order. -/
def itemSelectors : List Selector :=
  [.simp ⟨some "div", ["item", "row"]⟩,
   .simp ⟨some "div", ["bookArea"]⟩,
   .simp ⟨some "dl", ["bookDataWrap"]⟩,
   .child ⟨some "ul", ["listWrap"]⟩ ⟨some "li", []⟩,
   .simp ⟨some "li", []⟩]

/-- The `id(el)`-dedup step of the block loop (`seen` holds paths: the object
identities of one parse). -/
def dedupStep (sa : List (List Nat) × List Found) (f : Found) :
    List (List Nat) × List Found :=
  if sa.1.contains f.path then sa else (f.path :: sa.1, sa.2 ++ [f])

/-- The selector loop of `_find_item_blocks`: accumulate one tier, then
`if blocks: break`. -/
def find_item_blocks_go (soup : Node) (seen : List (List Nat)) (acc : List Found) :
    List Selector → List Found
  | [] => acc
  | css :: rest =>
    let sa := (select soup css).foldl dedupStep (seen, acc)
    if sa.2.isEmpty then find_item_blocks_go soup sa.1 sa.2 rest else sa.2

def find_item_blocks (soup : Node) : List Found :=
  find_item_blocks_go soup [] [] itemSelectors

/-! ## Cross-page aggregator (`parse_html`) -/

/-- The per-page outcome of the path-existence check plus the `try` block:
a missing file, an exception (read/parse/extraction), or a parsed soup. -/
inductive PageInput where
  | missing (path : String)
  | failed (e : String)
  | page (soup : Node)

/-- The records one successfully parsed page contributes. -/
def parse_page (soup : Node) : List BookRecord :=
  (find_item_blocks soup).filterMap (fun f => parse_item_block f.node (some f.parent))

/-- The page loop: `for idx, html_path in enumerate(html_paths, start=1)`,
collecting `all_parsed` and `errors` in order. -/
def processPages : Nat → List PageInput → List BookRecord × List String
  | _, [] => ([], [])
  | idx, p :: rest =>
    let pr := processPages (idx + 1) rest
    match p with
    | .missing path => (pr.1, (s!"[Page {idx}] HTML file not found: {path}") :: pr.2)
    | .failed e => (pr.1, (s!"[Page {idx}] Parse error: {e}") :: pr.2)
    | .page soup => (parse_page soup ++ pr.1, pr.2)

/-- The dedup key `(rec.get("title"), rec.get("library"))`. -/
def dedupKey (r : BookRecord) : String × Option String :=
  (r.title, r.library)

/-- The dedup loop with its `seen_keys` set. -/
def dedup_go (seen : List (String × Option String)) : List BookRecord → List BookRecord
  | [] => []
  | r :: rs =>
    if seen.contains (dedupKey r) then dedup_go seen rs
    else r :: dedup_go (dedupKey r :: seen) rs

def dedup_records (l : List BookRecord) : List BookRecord :=
  dedup_go [] l

/-- An exception raised by `_dump_jsonl` (`type(e).__name__` and `str(e)`). -/
structure SaveExc where
  name : String
  text : String

/-- The output keys of the node (`saved` holds `("jsonl", path)` entries). -/
structure ParseResult where
  parsed_books : List BookRecord
  parse_success : Bool
  parse_error : Option String
  saved : List (String × String)
deriving Repr

def noPathMsg : String :=
  "No html_path provided in state (expected 'saved_html_paths', 'saved_html_path' or 'html_path')."

def noBlocksMsg : String := "No item blocks parsed (DOM mode)."

/-- Embeds `parse_html`: the aggregation, dedup, success/error computation and the
JSONL save step (whose file-system outcome is the `writeResult` input;
`len(unique) > 0` is rendered as nonemptiness). -/
def parse_html (pages : List PageInput) (out_jsonl : Option String)
    (writeResult : Except SaveExc Unit) : ParseResult :=
  if pages.isEmpty then
    { parsed_books := [], parse_success := false, parse_error := some noPathMsg, saved := [] }
  else
    let pe := processPages 1 pages
    let unique_parsed := dedup_records pe.1
    let psuccess := !unique_parsed.isEmpty
    let perr : Option String :=
      if !pe.2.isEmpty then some (String.intercalate " | " pe.2)
      else if psuccess then none else some noBlocksMsg
    match out_jsonl with
    | none =>
      { parsed_books := unique_parsed, parse_success := psuccess, parse_error := perr,
        saved := [] }
    | some path =>
      match writeResult with
      | .ok _ =>
        { parsed_books := unique_parsed, parse_success := psuccess, parse_error := perr,
          saved := [("jsonl", path)] }
      | .error e =>
        let msg := "SaveError(" ++ e.name ++ "): " ++ e.text
        { parsed_books := unique_parsed, parse_success := psuccess,
          parse_error := some (match perr with | some prev => prev ++ " | " ++ msg | none => msg),
          saved := [] }

/-! ## Sample documents and blocks used as concrete instances -/

/-- A full item block: title span, emphasis status tag, library em, cover img. -/
def sampleBlockFull : Node :=
  .elem "li" [] []
    [.elem "span" ["tit"] [] [.text "한국어 책제목"],
     .elem "b" ["emp3"] [] [.text "대출가능[비치중]"],
     .elem "em" [] [] [.text "서초구립반포도서관"],
     .elem "img" [] [("src", "http://img.example.com/cover.jpg"), ("alt", "표지")] []]

/-- A block whose whole text is a year-month date. -/
def sampleBlockDate : Node := .elem "li" [] [] [.text "2024-10"]

/-- A block whose only status-bearing tag is an emphasis-classed
"loan unavailable". -/
def sampleBlockUnavail : Node :=
  .elem "div" [] [] [.elem "b" ["emp3"] [] [.text "대출불가"]]

/-- A block offering a short and a long Korean title candidate from different
selectors. -/
def sampleBlockTwoTitles : Node :=
  .elem "div" [] []
    [.elem "span" ["tit"] [] [.text "제목"],
     .elem "h3" [] [] [.text "전체 제목입니다"]]

/-- A block whose only title candidate has no Korean characters. -/
def sampleBlockNoKorean : Node :=
  .elem "div" [] [] [.elem "span" ["tit"] [] [.text "abc"]]

/-- A block with a relative img, a placeholder img, and a real cover img. -/
def sampleBlockImgs : Node :=
  .elem "div" [] []
    [.elem "img" [] [("src", "relative/img.png")] [],
     .elem "img" [] [("src", "http://x.example.com/noimg_default.png")] [],
     .elem "img" [] [("src", "http://x.example.com/real.jpg")] []]

/-- A document with no item blocks under any selector tier. -/
def sampleSoupEmpty : Node :=
  .elem "[document]" [] [] [.elem "body" [] [] [.elem "p" [] [] [.text "hello"]]]

/-- A document whose blocks match only the `ul.listWrap > li` tier (plus a
stray `li` that only the last-resort tier would see). -/
def sampleSoupList : Node :=
  .elem "[document]" [] []
    [.elem "body" [] []
      [.elem "ul" ["listWrap"] []
        [.elem "li" [] [] [.elem "span" ["tit"] [] [.text "첫째 책"]],
         .elem "li" [] [] [.elem "span" ["tit"] [] [.text "둘째 책"]]],
       .elem "li" [] [] [.text "stray"]]]

/-! ## C1 -/

/-- C1: for every record the assembler produces, the derived `available`
boolean equals the "대출가능"-substring test of the resolved raw status string
(the status extractor's output, `""` when it returns nothing); it is never set
independently of that string. -/
theorem C1_available_iff_status_contains_keyword (block : Node) (parentOpt : Option Node)
    (r : BookRecord) (h : parse_item_block block parentOpt = some r) :
    r.available = containsSub ((extract_status_from_block block parentOpt).getD "") "대출가능" := by
  simp only [parse_item_block] at h
  cases ht : extract_title_from_block block with
  | none => rw [ht] at h; exact absurd h (by simp)
  | some t =>
    rw [ht] at h
    simp only [Option.some.injEq] at h
    subst h
    simp [status_to_available]

/-- Witness for C1 at a concrete block. -/
theorem C1_witness :
    (BookRecord.mk "한국어 책제목" none (some "서초구립반포도서관") true none
        (some "http://img.example.com/cover.jpg")).available
      = containsSub ((extract_status_from_block sampleBlockFull none).getD "") "대출가능" :=
  C1_available_iff_status_contains_keyword sampleBlockFull none _ (by rfl)

/-! ## C2 -/

/-- C2 (counterexample): a concrete produced record whose serialized field
list is exactly the six fields and does not contain a `status_raw` field,
contradicting the claim that records carry `status_raw` in addition. -/
theorem C2_counterexample :
    parse_item_block sampleBlockFull none
      = some (BookRecord.mk "한국어 책제목" none (some "서초구립반포도서관") true none
          (some "http://img.example.com/cover.jpg")) ∧
    (record_fields (BookRecord.mk "한국어 책제목" none (some "서초구립반포도서관") true none
          (some "http://img.example.com/cover.jpg"))).map Prod.fst
      = ["title", "author", "library", "available", "call_number", "cover_image"] ∧
    ¬ ("status_raw" ∈ (record_fields (BookRecord.mk "한국어 책제목" none
          (some "서초구립반포도서관") true none
          (some "http://img.example.com/cover.jpg"))).map Prod.fst) :=
  ⟨by rfl, by rfl, by decide⟩

/-- C2 (amended): every produced record carries exactly the fields `title`,
`author`, `library`, `available`, `call_number`, `cover_image` — and no
`status_raw` field — and the per-line JSON objects carry exactly these. -/
theorem C2_record_fields_exact (block : Node) (parentOpt : Option Node)
    (r : BookRecord) (_h : parse_item_block block parentOpt = some r) :
    (record_fields r).map Prod.fst
      = ["title", "author", "library", "available", "call_number", "cover_image"] ∧
    ¬ ("status_raw" ∈ (record_fields r).map Prod.fst) ∧
    dump_jsonl_lines [r] = [record_fields r] :=
  ⟨by simp [record_fields], by simp [record_fields], by simp [dump_jsonl_lines]⟩

/-- Witness for C2's amended theorem at a concrete block. -/
theorem C2_witness :
    (record_fields (BookRecord.mk "한국어 책제목" none (some "서초구립반포도서관") true none
          (some "http://img.example.com/cover.jpg"))).map Prod.fst
      = ["title", "author", "library", "available", "call_number", "cover_image"] :=
  (C2_record_fields_exact sampleBlockFull none _ (by rfl)).1

/-! ## C3 -/

/-- C3: evaluating the call-number extractor at a block whose text is the
date string "2024-10": the direct pattern accepts it (its suffix class also
admits digits and hyphens), so a Korean-free, numeric-only string IS returned
— contradicting the claimed Korean-suffix requirement, and contradicting the
source's own comment that a call number must contain Hangul so that dates are
excluded. -/
theorem C3_callno_accepts_date :
    extract_call_number sampleBlockDate = some "2024-10" ∧
    has_korean "2024-10" = false ∧
    callnoDirectSearch "2024-10" = some "2024-10" :=
  ⟨by rfl, by rfl, by rfl⟩

/-! ## C4 -/

/-- C4 (counterexample): a block whose emphasis-classed status tag reads
"대출불가" (and no available keyword): the first rule fires and returns the
in-loan phrase "대출중", not the unavailable phrase "대출불가". -/
theorem C4_counterexample :
    extract_status_from_block sampleBlockUnavail none = some "대출중" ∧
    ¬ ((some "대출중" : Option String) = some "대출불가") :=
  ⟨by rfl, by decide⟩

/-- C4 (amended): whenever the emphasis-class rule fires on a tag whose
cleaned text contains a status keyword, is not excluded, contains the
unavailable keyword "대출불가" and no available keyword, the returned phrase
is the in-loan phrase "대출중" (the rule maps the unavailable keyword to
"대출중"). -/
theorem C4_emp_rule_maps_unavail_to_in_loan (scope : Node) (cls : String) (tag : Node)
    (hf : findFirstTagWithClass scope ["b", "span", "em"] cls = some tag)
    (hne : ¬ (cleanStr (getText tag "") = ""))
    (hkw : STATUS_KEYWORDS.any (fun kw => containsSub (cleanStr (getText tag "")) kw) = true)
    (hexcl : excludedEmp (cleanStr (getText tag "")) = false)
    (hunavail : containsSub (cleanStr (getText tag "")) "대출불가" = true)
    (havail : containsSub (cleanStr (getText tag "")) "대출가능" = false) :
    empClassStep scope cls = some "대출중" := by
  unfold empClassStep
  rw [hf]
  unfold empTagDecision
  have hbeq : (cleanStr (getText tag "") == "") = false := beq_eq_false_iff_ne.mpr hne
  simp [hbeq, hkw, hexcl, hunavail, havail]

/-- Witness for C4's amended theorem at the concrete counterexample block. -/
theorem C4_witness : empClassStep sampleBlockUnavail "emp3" = some "대출중" :=
  C4_emp_rule_maps_unavail_to_in_loan sampleBlockUnavail "emp3"
    (Node.elem "b" ["emp3"] [] [Node.text "대출불가"])
    (by rfl) (by decide) (by decide) (by decide) (by decide) (by decide)

/-! ## C10 -/

theorem coverFromImgs_ok : ∀ (l : List Node) (url : String),
    coverFromImgs l = some url → coverImgOk url = true
  | [], _, h => by simp [coverFromImgs] at h
  | img :: rest, url, h => by
    simp only [coverFromImgs] at h
    split at h
    · next hc => cases h; exact hc
    · next hc => exact coverFromImgs_ok rest url h

/-- C10: every url the cover-image extractor returns starts with "http" and
contains neither "noimg" nor "no-image" case-insensitively; relative `src`
values are never returned. -/
theorem C10_cover_image_absolute_no_placeholder (block : Node) (parentOpt : Option Node)
    (url : String) (h : extract_cover_image block parentOpt = some url) :
    startsWith url "http" = true ∧
    containsSub (lowerStr url) "noimg" = false ∧
    containsSub (lowerStr url) "no-image" = false := by
  simp only [extract_cover_image] at h
  have hok := coverFromImgs_ok _ url h
  simp only [coverImgOk, Bool.and_eq_true, Bool.not_eq_true'] at hok
  exact ⟨hok.1.1.2, hok.1.2, hok.2⟩

/-- Witness for C10 at a concrete block (whose first img is relative and
second a placeholder: the third is returned). -/
theorem C10_witness :
    startsWith "http://x.example.com/real.jpg" "http" = true ∧
    containsSub (lowerStr "http://x.example.com/real.jpg") "noimg" = false ∧
    containsSub (lowerStr "http://x.example.com/real.jpg") "no-image" = false :=
  C10_cover_image_absolute_no_placeholder sampleBlockImgs none _ (by rfl)

/-! ## C5 -/

theorem foldl_dedupStep_acc_ne_nil (l : List Found) (sa : List (List Nat) × List Found)
    (h : sa.2 ≠ []) : (l.foldl dedupStep sa).2 ≠ [] := by
  induction l generalizing sa with
  | nil => exact h
  | cons f fs ih =>
    rw [List.foldl_cons]
    apply ih
    unfold dedupStep
    split
    · exact h
    · simp

theorem foldl_dedupStep_from_nil_ne_nil (l : List Found) (hl : l ≠ []) :
    (l.foldl dedupStep ([], [])).2 ≠ [] := by
  cases l with
  | nil => exact absurd rfl hl
  | cons f fs =>
    rw [List.foldl_cons]
    have h1 : dedupStep ([], []) f = ([f.path], [f]) := by simp [dedupStep]
    rw [h1]
    exact foldl_dedupStep_acc_ne_nil fs _ (by simp)

/-- C5: the block locator tries the selector tiers in fixed priority order and
stops at the first tier yielding matches — when every earlier tier matches
nothing and a tier matches something, the returned blocks are exactly that
tier's matches (identity-deduplicated), and no later tier contributes. -/
theorem C5_first_matching_tier_wins (soup : Node) (pre : List Selector) (sel : Selector)
    (rest : List Selector) (hdec : itemSelectors = pre ++ sel :: rest)
    (hpre : ∀ s ∈ pre, select soup s = [])
    (hsel : select soup sel ≠ []) :
    find_item_blocks soup = ((select soup sel).foldl dedupStep ([], [])).2 := by
  unfold find_item_blocks
  rw [hdec]
  clear hdec
  induction pre with
  | nil =>
    rw [List.nil_append]
    simp only [find_item_blocks_go]
    rw [if_neg]
    simp only [List.isEmpty_iff]
    exact foldl_dedupStep_from_nil_ne_nil _ hsel
  | cons s ss ih =>
    have hs : select soup s = [] := hpre s (by simp)
    rw [List.cons_append]
    simp only [find_item_blocks_go]
    rw [hs]
    simpa using ih (fun x hx => hpre x (by simp [hx]))

/-- Witness for C5: a document matched only by the fourth tier
(the three site-specific tiers are empty, the last-resort tier unconsulted). -/
theorem C5_witness :
    find_item_blocks sampleSoupList
      = ((select sampleSoupList
            (.child ⟨some "ul", ["listWrap"]⟩ ⟨some "li", []⟩)).foldl dedupStep ([], [])).2 :=
  C5_first_matching_tier_wins sampleSoupList
    [.simp ⟨some "div", ["item", "row"]⟩, .simp ⟨some "div", ["bookArea"]⟩,
     .simp ⟨some "dl", ["bookDataWrap"]⟩]
    (.child ⟨some "ul", ["listWrap"]⟩ ⟨some "li", []⟩)
    [.simp ⟨some "li", []⟩]
    (by rfl)
    (by intro s hs; simp only [List.mem_cons, List.not_mem_nil, or_false] at hs
        rcases hs with rfl | rfl | rfl <;> rfl)
    (by intro hcon
        have h2 : (select sampleSoupList
            (.child ⟨some "ul", ["listWrap"]⟩ ⟨some "li", []⟩)).length = 2 := rfl
        rw [hcon] at h2
        simp at h2)

/-! ## C6 -/

/-- One step of the spec-side selection. -/
def pickLonger (acc : Option String) (t : String) : Option String :=
  match acc with
  | none => some t
  | some b => if b.length ≤ t.length then some t else some b

/-- Stated from the spec's words: "select the longest remaining candidate",
with the later candidate winning length ties (as the spec's two-candidate
example requires). -/
def pickLongestLast (cands : List String) : Option String :=
  cands.foldl pickLonger none

theorem orderedInsert_lenRel_ne_nil (x : String) (s : List String) :
    s.orderedInsert lenRel x ≠ [] := by
  cases s with
  | nil => simp
  | cons b bs =>
    unfold List.orderedInsert
    split <;> simp

theorem getLast?_orderedInsert_lenRel (x : String) :
    ∀ (s : List String), s.Sorted lenRel →
      (s.orderedInsert lenRel x).getLast?
        = (match s.getLast? with
           | none => some x
           | some m => if m.length < x.length then some x else some m)
  | [], _ => by rfl
  | b :: bs, hs => by
    by_cases hxb : lenRel x b
    · rw [List.orderedInsert_of_le lenRel bs hxb, List.getLast?_cons_cons]
      have hbn : (b :: bs).getLast? ≠ none := by
        rw [Ne, List.getLast?_eq_none_iff]
        simp
      obtain ⟨m, hm⟩ := Option.ne_none_iff_exists.mp (by exact hbn)
      have hmem : m ∈ b :: bs := by
        obtain ⟨hnil, hlast⟩ :=
          List.mem_getLast?_eq_getLast (show m ∈ (b :: bs).getLast? from by rw [← hm]; rfl)
        rw [hlast]
        exact List.getLast_mem hnil
      have hbm : lenRel b m := by
        rcases List.mem_cons.mp hmem with rfl | hmbs
        · exact Nat.le_refl _
        · exact List.rel_of_sorted_cons hs m hmbs
      rw [← hm]
      show some m = if m.length < x.length then some x else some m
      rw [if_neg]
      unfold lenRel at hxb hbm
      omega
    · unfold List.orderedInsert
      rw [if_neg hxb]
      obtain ⟨y, ys, hy⟩ := List.exists_cons_of_ne_nil (orderedInsert_lenRel_ne_nil x bs)
      rw [hy, List.getLast?_cons_cons, ← hy,
        getLast?_orderedInsert_lenRel x bs (List.Sorted.of_cons hs)]
      cases hbs : bs.getLast? with
      | none =>
        have hbsnil : bs = [] := List.getLast?_eq_none_iff.mp hbs
        subst hbsnil
        simp only [List.getLast?_singleton]
        rw [if_pos]
        unfold lenRel at hxb
        omega
      | some m =>
        have hbsne : bs ≠ [] := by
          intro hcon
          rw [hcon] at hbs
          simp at hbs
        obtain ⟨c, cs, hc⟩ := List.exists_cons_of_ne_nil hbsne
        subst hc
        rw [List.getLast?_cons_cons, hbs]

theorem pickLonger_foldl_some : ∀ (l : List String) (b : String),
    l.foldl pickLonger (some b)
      = (match l.foldl pickLonger none with
         | none => some b
         | some m => if b.length ≤ m.length then some m else some b)
  | [], b => by rfl
  | t :: ts, b => by
    rw [List.foldl_cons, List.foldl_cons]
    have h1 : pickLonger none t = some t := rfl
    rw [h1]
    by_cases hbt : b.length ≤ t.length
    · have h2 : pickLonger (some b) t = some t := by
        show (if b.length ≤ t.length then some t else some b) = some t
        rw [if_pos hbt]
      rw [h2, pickLonger_foldl_some ts t]
      cases hM : ts.foldl pickLonger none with
      | none =>
        dsimp only
        rw [if_pos hbt]
      | some m =>
        dsimp only
        by_cases htm : t.length ≤ m.length
        · rw [if_pos htm]
          dsimp only
          rw [if_pos (Nat.le_trans hbt htm)]
        · rw [if_neg htm]
          dsimp only
          rw [if_pos hbt]
    · have h2 : pickLonger (some b) t = some b := by
        show (if b.length ≤ t.length then some t else some b) = some b
        rw [if_neg hbt]
      rw [h2, pickLonger_foldl_some ts b, pickLonger_foldl_some ts t]
      cases hM : ts.foldl pickLonger none with
      | none =>
        dsimp only
        rw [if_neg hbt]
      | some m =>
        dsimp only
        by_cases htm : t.length ≤ m.length
        · rw [if_pos htm]
        · rw [if_neg htm]
          dsimp only
          rw [if_neg hbt, if_neg (by omega : ¬ b.length ≤ m.length)]

theorem getLast?_sortByLen_eq_pick : ∀ (l : List String),
    (sortByLen l).getLast? = pickLongestLast l
  | [] => rfl
  | a :: l => by
    show (List.orderedInsert lenRel a (List.insertionSort lenRel l)).getLast? = _
    rw [getLast?_orderedInsert_lenRel a _ (List.sorted_insertionSort lenRel l)]
    have hrec := getLast?_sortByLen_eq_pick l
    unfold sortByLen at hrec
    rw [hrec]
    unfold pickLongestLast
    rw [List.foldl_cons]
    have h1 : pickLonger none a = some a := rfl
    rw [h1, pickLonger_foldl_some l a]
    cases hM : l.foldl pickLonger none with
    | none => rfl
    | some m =>
      dsimp only
      split_ifs <;> first | rfl | omega

/-- C6: the title extractor returns the longest Korean-bearing candidate
(later candidate winning ties, per the stable sort) from the candidates the
collectors produced, and when no Korean-bearing candidate remains it returns
nothing and the record is dropped. -/
theorem C6_title_longest_korean_candidate (block : Node) (parentOpt : Option Node) :
    extract_title_from_block block
      = pickLongestLast ((title_candidates block).filter has_korean) ∧
    (extract_title_from_block block = none → parse_item_block block parentOpt = none) := by
  constructor
  · exact getLast?_sortByLen_eq_pick _
  · intro h
    simp only [parse_item_block]
    rw [h]

/-- Witness for C6: among candidates "제목" and "전체 제목입니다" from different
selectors the longer is chosen, and a block with no Korean-bearing candidate
yields no record. -/
theorem C6_witness :
    extract_title_from_block sampleBlockTwoTitles = some "전체 제목입니다" ∧
    parse_item_block sampleBlockNoKorean none = none := by
  constructor
  · rw [(C6_title_longest_korean_candidate sampleBlockTwoTitles none).1]
    rfl
  · exact (C6_title_longest_korean_candidate sampleBlockNoKorean none).2 (by rfl)

/-! ## C7 -/

/-- Stated from the spec's words: two records are the same logical entity iff
their `(title, library)` keys match exactly; only the first occurrence in scan
order is retained. -/
def firstOccSpec : List BookRecord → List BookRecord
  | [] => []
  | r :: rs => r :: firstOccSpec (rs.filter (fun x => !(dedupKey x == dedupKey r)))
termination_by l => l.length
decreasing_by
  exact Nat.lt_succ_of_le (List.length_filter_le _ _)

theorem filter_and_filter (p q : α → Bool) (l : List α) :
    (l.filter p).filter q = l.filter (fun a => p a && q a) := by
  induction l with
  | nil => rfl
  | cons a as ih =>
    rw [List.filter_cons, List.filter_cons]
    cases hp : p a <;> cases hq : q a <;> simp [List.filter_cons, hp, hq, ih]

theorem dedup_go_eq_firstOccSpec : ∀ (l : List BookRecord) (seen : List (String × Option String)),
    dedup_go seen l = firstOccSpec (l.filter (fun x => !(seen.contains (dedupKey x))))
  | [], seen => by simp [dedup_go, firstOccSpec]
  | r :: rs, seen => by
    unfold dedup_go
    rw [List.filter_cons]
    by_cases hc : seen.contains (dedupKey r)
    · rw [if_pos hc, dedup_go_eq_firstOccSpec rs seen, hc, Bool.not_true,
        if_neg (by simp : ¬ (false = true))]
    · have hcb : seen.contains (dedupKey r) = false := by
        cases h : seen.contains (dedupKey r)
        · rfl
        · exact absurd h hc
      rw [if_neg hc, dedup_go_eq_firstOccSpec rs (dedupKey r :: seen), hcb, Bool.not_false,
        if_pos rfl]
      conv_rhs => rw [firstOccSpec]
      congr 1
      rw [filter_and_filter]
      congr 1
      apply List.filter_congr
      intro x _
      rw [List.contains_cons]
      cases h1 : dedupKey x == dedupKey r <;> cases h2 : seen.contains (dedupKey x) <;> simp

theorem dedup_records_eq_firstOccSpec (l : List BookRecord) :
    dedup_records l = firstOccSpec l := by
  unfold dedup_records
  rw [dedup_go_eq_firstOccSpec]
  congr 1
  simp

theorem firstOccSpec_filter_comm (k : String × Option String) :
    ∀ (n : Nat) (l : List BookRecord), l.length ≤ n →
      firstOccSpec (l.filter (fun x => !(dedupKey x == k)))
        = (firstOccSpec l).filter (fun x => !(dedupKey x == k))
  | _, [], _ => by simp [firstOccSpec]
  | 0, r :: rs, h => by simp at h
  | n + 1, r :: rs, h => by
    have hlen : rs.length ≤ n := Nat.le_of_succ_le_succ h
    rw [List.filter_cons]
    by_cases hrk : dedupKey r == k
    · have hrk2 : dedupKey r = k := eq_of_beq hrk
      subst hrk2
      have hself : (dedupKey r == dedupKey r) = true := beq_self_eq_true _
      rw [hself, Bool.not_true, if_neg (by simp : ¬ (false = true))]
      conv_rhs => rw [firstOccSpec]
      rw [List.filter_cons, hself, Bool.not_true, if_neg (by simp : ¬ (false = true))]
      rw [← firstOccSpec_filter_comm (dedupKey r) n (rs.filter _)
        (Nat.le_trans (List.length_filter_le _ _) hlen)]
      rw [filter_and_filter]
      congr 1
      apply List.filter_congr
      intro x _
      cases h1 : dedupKey x == dedupKey r <;> simp
    · have hrkb : (dedupKey r == k) = false := by
        cases h1 : dedupKey r == k
        · rfl
        · exact absurd h1 hrk
      rw [hrkb, Bool.not_false, if_pos rfl]
      conv_lhs => rw [firstOccSpec]
      conv_rhs => rw [firstOccSpec]
      rw [List.filter_cons, hrkb, Bool.not_false, if_pos rfl]
      congr 1
      rw [filter_and_filter,
        ← firstOccSpec_filter_comm k n (rs.filter (fun x => !(dedupKey x == dedupKey r)))
          (Nat.le_trans (List.length_filter_le _ _) hlen),
        filter_and_filter]
      congr 1
      apply List.filter_congr
      intro x _
      cases h1 : dedupKey x == dedupKey r <;> cases h2 : dedupKey x == k <;> simp

theorem firstOccSpec_idem : ∀ (n : Nat) (l : List BookRecord), l.length ≤ n →
    firstOccSpec (firstOccSpec l) = firstOccSpec l
  | _, [], _ => by simp [firstOccSpec]
  | 0, r :: rs, h => by simp at h
  | n + 1, r :: rs, h => by
    have hlen : rs.length ≤ n := Nat.le_of_succ_le_succ h
    conv_lhs => rw [firstOccSpec]
    conv_lhs => rw [firstOccSpec]
    rw [← firstOccSpec_filter_comm (dedupKey r) n (rs.filter _)
      (Nat.le_trans (List.length_filter_le _ _) hlen)]
    rw [filter_and_filter]
    have hsame : (rs.filter fun x => !(dedupKey x == dedupKey r) && !(dedupKey x == dedupKey r))
        = rs.filter (fun x => !(dedupKey x == dedupKey r)) := by
      apply List.filter_congr
      intro x _
      cases h1 : dedupKey x == dedupKey r <;> simp
    rw [hsame, firstOccSpec_idem n (rs.filter _)
      (Nat.le_trans (List.length_filter_le _ _) hlen)]
    conv_rhs => rw [firstOccSpec]

/-- C7: the cross-page dedup keys records by the exact `(title, library)` pair
(null library included in the key type), keeps only the first occurrence in
scan order, and is idempotent. -/
theorem C7_dedup_first_seen_idempotent :
    (∀ l : List BookRecord, dedup_records l = firstOccSpec l) ∧
    (∀ l : List BookRecord, dedup_records (dedup_records l) = dedup_records l) := by
  constructor
  · exact dedup_records_eq_firstOccSpec
  · intro l
    rw [dedup_records_eq_firstOccSpec (dedup_records l), dedup_records_eq_firstOccSpec l]
    exact firstOccSpec_idem l.length l (Nat.le_refl _)

/-! ## C8 -/

theorem processPages_blockless : ∀ (pages : List PageInput) (idx : Nat),
    (∀ p ∈ pages, ∃ soup, p = PageInput.page soup ∧ find_item_blocks soup = []) →
    processPages idx pages = ([], [])
  | [], _, _ => rfl
  | p :: rest, idx, h => by
    obtain ⟨soup, hp, hfb⟩ := h p (by simp)
    subst hp
    unfold processPages
    rw [processPages_blockless rest (idx + 1) (fun q hq => h q (by simp [hq]))]
    simp [parse_page, hfb]

/-- C8: the aggregator's success flag is true iff at least one record survives
deduplication (the returned record list is the dedup output); and for input
whose every page parses to zero item blocks (no page-level errors), the engine
returns an empty record list, success false, and a non-null error. -/
theorem C8_success_iff_survivors (pages : List PageInput) (o : Option String)
    (w : Except SaveExc Unit) :
    ((parse_html pages o w).parse_success = true ↔ (parse_html pages o w).parsed_books ≠ []) ∧
    (pages ≠ [] →
      (parse_html pages o w).parsed_books = dedup_records (processPages 1 pages).1) ∧
    (pages ≠ [] →
      (∀ p ∈ pages, ∃ soup, p = PageInput.page soup ∧ find_item_blocks soup = []) →
      (parse_html pages o w).parsed_books = [] ∧
      (parse_html pages o w).parse_success = false ∧
      (parse_html pages o w).parse_error ≠ none) := by
  by_cases hp : pages.isEmpty
  · have hpn : pages = [] := List.isEmpty_iff.mp hp
    refine ⟨?_, fun hne => absurd hpn hne, fun hne => absurd hpn hne⟩
    simp [parse_html, hp]
  · have hcond : ¬ (pages.isEmpty = true) := hp
    have hne : pages ≠ [] := by
      intro hcon
      exact hp (by simp [hcon])
    refine ⟨?_, ?_, ?_⟩
    · unfold parse_html
      rw [if_neg hcond]
      cases o with
      | none => simp [List.isEmpty_iff]
      | some path =>
        cases w with
        | ok u => simp [List.isEmpty_iff]
        | error e => simp [List.isEmpty_iff]
    · intro _
      unfold parse_html
      rw [if_neg hcond]
      cases o with
      | none => rfl
      | some path => cases w with
        | ok u => rfl
        | error e => rfl
    · intro _ hall
      have hpp := processPages_blockless pages 1 hall
      unfold parse_html
      rw [if_neg hcond, hpp]
      cases o with
      | none => simp [dedup_records, dedup_go, noBlocksMsg]
      | some path =>
        cases w with
        | ok u => simp [dedup_records, dedup_go, noBlocksMsg]
        | error e => simp [dedup_records, dedup_go, noBlocksMsg]

/-- Witness for C8: a one-page batch whose document contains no item blocks. -/
theorem C8_witness :
    (parse_html [PageInput.page sampleSoupEmpty] none (.ok ())).parsed_books = [] ∧
    (parse_html [PageInput.page sampleSoupEmpty] none (.ok ())).parse_success = false ∧
    (parse_html [PageInput.page sampleSoupEmpty] none (.ok ())).parse_error ≠ none :=
  (C8_success_iff_survivors [PageInput.page sampleSoupEmpty] none (.ok ())).2.2
    (by simp)
    (by
      intro p hp
      simp only [List.mem_singleton] at hp
      subst hp
      exact ⟨sampleSoupEmpty, rfl, by rfl⟩)

/-! ## C9 -/

/-- C9: when the JSONL write fails, the save-error message is appended to the
existing error string (or becomes the error string when none existed), and the
returned deduplicated record list is exactly the one of a run whose write
succeeds — the failed write does not change it. -/
theorem C9_save_failure_appends_error_keeps_records (pages : List PageInput) (path : String)
    (e : SaveExc) (hne : pages ≠ []) :
    (parse_html pages (some path) (.error e)).parsed_books
        = (parse_html pages (some path) (.ok ())).parsed_books ∧
    (parse_html pages (some path) (.error e)).parse_error
        = some (match (parse_html pages (some path) (.ok ())).parse_error with
            | some prev => prev ++ " | " ++ ("SaveError(" ++ e.name ++ "): " ++ e.text)
            | none => "SaveError(" ++ e.name ++ "): " ++ e.text) := by
  have hcond : ¬ (pages.isEmpty = true) := by
    intro hcon
    exact hne (List.isEmpty_iff.mp hcon)
  unfold parse_html
  rw [if_neg hcond, if_neg hcond]
  exact ⟨rfl, rfl⟩

/-- Witness for C9 at a concrete one-page batch with a failing write. -/
theorem C9_witness :
    (parse_html [PageInput.failed "boom"] (some "out.jsonl")
        (.error ⟨"OSError", "disk full"⟩)).parsed_books
      = (parse_html [PageInput.failed "boom"] (some "out.jsonl") (.ok ())).parsed_books ∧
    (parse_html [PageInput.failed "boom"] (some "out.jsonl")
        (.error ⟨"OSError", "disk full"⟩)).parse_error
      = some (match (parse_html [PageInput.failed "boom"] (some "out.jsonl")
            (.ok ())).parse_error with
          | some prev => prev ++ " | " ++ ("SaveError(" ++ "OSError" ++ "): " ++ "disk full")
          | none => "SaveError(" ++ "OSError" ++ "): " ++ "disk full") :=
  C9_save_failure_appends_error_keeps_records [PageInput.failed "boom"] "out.jsonl"
    ⟨"OSError", "disk full"⟩ (by simp)

end BookToss
